import Mathlib

/-!
Shallow embedding of the n3-core compiler (podo-os/n3-core) for checking its
natural-language specification.  Rust sources embedded: src/graphs/id.rs,
src/graphs/shape.rs, src/graphs/variable.rs, src/graphs/node.rs,
src/graphs/graph.rs, src/graphs/root.rs, src/compile.rs, src/error.rs.
External collaborators (the n3-parser AST, the symengine expression adapter,
the heck CamelCase helper) are modelled from the spec, as marked.
-/

namespace N3

/-- Result of running a piece of the compiler: `ok` and `err` mirror Rust's
`Result`; `fatal` models a Rust process abort (`panic!`, `unreachable!`,
`unimplemented!`, `unwrap` on `None`); `nofuel` is the artefact of the fuel
counter used for the mutually recursive compile pipeline and never
corresponds to a behaviour of the program. -/
inductive PRes (ε : Type) (α : Type) where
  | ok (a : α)
  | err (e : ε)
  | fatal
  | nofuel

def PRes.bind {ε α β : Type} : PRes ε α → (α → PRes ε β) → PRes ε β
  | .ok a, f => f a
  | .err e, _ => .err e
  | .fatal, _ => .fatal
  | .nofuel, _ => .nofuel

instance {ε : Type} : Monad (PRes ε) where
  pure := PRes.ok
  bind := PRes.bind

/-- Maps the error of a result, mirroring the explicit re-wrapping done in the
Rust sources when a `GraphError` is turned into a `CompileError`. -/
def PRes.mapErr {ε ε' α : Type} (f : ε → ε') : PRes ε α → PRes ε' α
  | .ok a => .ok a
  | .err e => .err (f e)
  | .fatal => .fatal
  | .nofuel => .nofuel

def PRes.isOk {ε α : Type} : PRes ε α → Bool
  | .ok _ => true
  | _ => false

/-- Lifting of `Option.unwrap`: a `none` is a Rust panic. -/
def PRes.ofOption {ε α : Type} : Option α → PRes ε α
  | some a => .ok a
  | none => .fatal

/-! ## Symbolic algebra (Modelled from the spec: the symengine adapter, §4.1) -/

/-- Modelled from the spec: a symengine `Expression` is a multivariate
expression over named symbols and exact rational constants with the four
arithmetic operations (spec §4.1). -/
inductive SExpr where
  | const (q : ℚ)
  | sym (s : String)
  | add (a b : SExpr)
  | sub (a b : SExpr)
  | mul (a b : SExpr)
  | div (a b : SExpr)
  deriving DecidableEq, Repr

/-- Modelled from the spec: deterministic canonicalization of an expression.
Constants fold exactly over the rationals and the constants `0` and `1` are
recognized as additive and multiplicative identities (spec §4.1: "Constants
`0` and `1` are recognized for divide-by-zero and product identity"). -/
def SExpr.norm : SExpr → SExpr
  | .const q => .const q
  | .sym s => .sym s
  | .add a b =>
    match a.norm, b.norm with
    | .const x, .const y => .const (x + y)
    | .const x, b' => if x = 0 then b' else .add (.const x) b'
    | a', .const y => if y = 0 then a' else .add a' (.const y)
    | a', b' => .add a' b'
  | .sub a b =>
    match a.norm, b.norm with
    | .const x, .const y => .const (x - y)
    | a', .const y => if y = 0 then a' else .sub a' (.const y)
    | a', b' => .sub a' b'
  | .mul a b =>
    match a.norm, b.norm with
    | .const x, .const y => .const (x * y)
    | .const x, b' => if x = 0 then .const 0 else if x = 1 then b' else .mul (.const x) b'
    | a', .const y => if y = 0 then .const 0 else if y = 1 then a' else .mul a' (.const y)
    | a', b' => .mul a' b'
  | .div a b =>
    match a.norm, b.norm with
    | .const x, .const y => if y = 0 then .div (.const x) (.const y) else .const (x / y)
    | a', .const y => if y = 1 then a' else .div a' (.const y)
    | a', b' => .div a' b'

/-- Modelled from the spec: symengine `PartialEq` is structural equality after
canonicalization (spec §4.1). -/
def SExpr.eqExpr (a b : SExpr) : Bool := decide (a.norm = b.norm)

/-- Modelled from the spec: `eval_once` substitutes the bound symbols one
level (no recursion into the substituted values), spec §4.1. -/
def SExpr.substOnce (σ : String → Option SExpr) : SExpr → SExpr
  | .const q => .const q
  | .sym s => (σ s).getD (.sym s)
  | .add a b => .add (a.substOnce σ) (b.substOnce σ)
  | .sub a b => .sub (a.substOnce σ) (b.substOnce σ)
  | .mul a b => .mul (a.substOnce σ) (b.substOnce σ)
  | .div a b => .div (a.substOnce σ) (b.substOnce σ)

/-- Word splitting on spaces and underscores over the character list. -/
def camelSplit : List Char → List (List Char)
  | [] => [[]]
  | c :: t =>
    match camelSplit t with
    | [] => [[]]
    | w :: ws => if c = ' ' ∨ c = '_' then [] :: w :: ws else (c :: w) :: ws

/-- Capitalization of one word. -/
def capitalizeChars : List Char → List Char
  | [] => []
  | c :: t => c.toUpper :: t

/-- Modelled from the spec: heck's `CamelCase` used by `DimKey::to_string`;
words split on spaces and underscores are capitalized and concatenated
(spec §3: deterministic encoding `"var_<CamelCase(name)>"`). -/
def camelCase (s : String) : String :=
  ⟨((camelSplit s.data).map capitalizeChars).flatten⟩

/-! ## Dims, shapes and shape state (src/graphs/shape.rs) -/

/-- src/graphs/shape.rs `DimKey` -/
inductive DimKey where
  | var (name : String)
  | placeholder (name : String) (is_input : Bool)
  deriving DecidableEq, Repr

/-- src/graphs/shape.rs `impl ExpressionMapKey for DimKey { fn to_string }` -/
def DimKey.to_string : DimKey → String
  | .var v => "var_" ++ camelCase v
  | .placeholder p _ => "ph_" ++ camelCase p

/-- src/graphs/shape.rs `DimKey::into_name` -/
def DimKey.into_name : DimKey → String
  | .var v => v
  | .placeholder p _ => p

/-- src/graphs/shape.rs `DimKey::to_expr` -/
def DimKey.to_expr (k : DimKey) : SExpr := .sym k.to_string

/-- src/graphs/shape.rs `Dim` -/
inductive Dim where
  | key (k : DimKey)
  | expr (e : SExpr)
  deriving DecidableEq, Repr

/-- src/graphs/shape.rs `Dim::to_expr` -/
def Dim.to_expr : Dim → SExpr
  | .key k => k.to_expr
  | .expr e => e

/-- The `#[derive(PartialEq)]` equality of `Dim`: variant-wise, with the
symengine canonical equality on the `Expr` payloads. -/
def Dim.eqDim : Dim → Dim → Bool
  | .key a, .key b => decide (a = b)
  | .expr a, .expr b => a.eqExpr b
  | _, _ => false

/-- src/graphs/shape.rs `impl ops::Add for Dim` -/
def Dim.addDim (a b : Dim) : Dim := .expr (.add a.to_expr b.to_expr)

/-- src/graphs/shape.rs `impl ops::Sub for Dim` -/
def Dim.subDim (a b : Dim) : Dim := .expr (.sub a.to_expr b.to_expr)

/-- src/graphs/shape.rs `impl ops::Mul for Dim` -/
def Dim.mulDim (a b : Dim) : Dim := .expr (.mul a.to_expr b.to_expr)

/-- src/graphs/shape.rs `impl ops::Div for Dim` -/
def Dim.divDim (a b : Dim) : Dim := .expr (.div a.to_expr b.to_expr)

/-- src/graphs/shape.rs `FitState` -/
inductive FitState where
  | weak
  | full
  deriving DecidableEq, Repr

/-- src/graphs/shape.rs `ShapeState` -/
inductive ShapeState where
  | fixed (s : FitState)
  | required (s : FitState)
  | transform
  deriving DecidableEq, Repr

/-- src/graphs/shape.rs `impl Default for ShapeState` -/
def ShapeState.default : ShapeState := .fixed .weak

/-- src/graphs/shape.rs `ShapeState::is_new_var_available` -/
def ShapeState.is_new_var_available : ShapeState → Bool
  | .fixed .weak => false
  | .fixed .full => true
  | .required .weak => true
  | .required .full => false
  | .transform => true

/-- src/graphs/shape.rs `Shape` -/
inductive Shape where
  | dynamic
  | fixed (dims : List Dim)
  deriving DecidableEq, Repr

/-- src/graphs/shape.rs `Shapes`: the `Fixed` payload is a
`BTreeMap<u64, Shape>`, embedded as a key-sorted association list. -/
inductive Shapes where
  | dynamic
  | fixed (shapes : List (Nat × Shape))
  deriving DecidableEq, Repr

/-! ## Graph identifiers (src/graphs/id.rs) -/

/-- src/graphs/id.rs `GraphId` -/
structure GraphId where
  node : Nat
  pass : Nat
  rep : Nat
  deriving DecidableEq, Repr

/-- src/graphs/id.rs `GraphId::new_input` -/
def GraphId.new_input : GraphId := ⟨0, 0, 0⟩

/-- src/graphs/id.rs `GraphId::new_first` -/
def GraphId.new_first : GraphId := ⟨1, 0, 0⟩

/-- src/graphs/id.rs `GraphId::validate` -/
def GraphId.validate (self last : GraphId) : Bool :=
  if self.node = last.node then
    if self.pass = last.pass then
      self.rep = last.rep + 1
    else
      self.pass = last.pass + 1
  else
    self.node = last.node + 1

/-- src/graphs/id.rs `GraphId::is_input` -/
def GraphId.is_input (self : GraphId) : Bool := decide (self = GraphId.new_input)

/-- src/graphs/id.rs `GraphId::is_first` -/
def GraphId.is_first (self : GraphId) : Bool := decide (self = GraphId.new_first)

/-- The derived lexicographic `Ord` on `GraphId` (field order node, pass,
repeat), used by the `BTreeMap` of nodes. -/
def GraphId.lt (a b : GraphId) : Bool :=
  a.node < b.node ∨ (a.node = b.node ∧ (a.pass < b.pass ∨ (a.pass = b.pass ∧ a.rep < b.rep)))

/-- src/graphs/id.rs `GraphIdArg` -/
structure GraphIdArg where
  id : GraphId
  arg : Option Nat
  deriving DecidableEq, Repr

/-- Modelled from the spec: `GraphIdArg::with_id` is used by the sources but
not defined under src/; per spec §4.5 step 5 the default input edge is
`GraphIdArg { id: last_id, arg: None }`. -/
def GraphIdArg.with_id (id : GraphId) : GraphIdArg := ⟨id, none⟩

/-! ## Values and variables (src/graphs/variable.rs; `Value` is re-exported
from the parser AST and is modelled from spec §6) -/

/-- Modelled from the spec: `Value = Bool | Int(i64) | UInt(u64) | Real(f64) |
Model(string)` (spec §6); the `Real` payload is embedded as a rational, the
core never computes with it. -/
inductive Value where
  | bool (b : Bool)
  | int (i : Int)
  | uint (u : Nat)
  | real (r : ℚ)
  | model (s : String)
  deriving DecidableEq, Repr

/-- src/graphs/variable.rs `ValueType` -/
inductive ValueType where
  | required
  | bool
  | int
  | uint
  | real
  | model
  deriving DecidableEq, Repr

/-- src/graphs/variable.rs `ValueType::new` -/
def ValueType.new (value : Option Value) (is_model : Bool) : ValueType :=
  if is_model then .model
  else
    match value with
    | some (.bool _) => .bool
    | some (.int _) => .int
    | some (.uint _) => .uint
    | some (.real _) => .real
    | some (.model _) => .model
    | none => .required

/-- src/graphs/variable.rs `Variable` -/
structure Variable where
  description : String
  ty : ValueType
  value : Option Value
  deriving DecidableEq, Repr

/-- src/graphs/variable.rs `Variable::unwrap_uint` -/
def Variable.unwrap_uint (v : Variable) : Option Nat :=
  match v.value with
  | some (.uint u) => some u
  | _ => none

/-! ## Errors (src/error.rs) -/

/-- src/error.rs `GraphError` -/
inductive GraphError where
  | inputNodeNotFound
  | firstNodeNotFound
  | unvalidNodeId (last id : GraphId)
  | unvalidNodeArg (id : GraphId) (arg given : Nat)
  | shapeNotDefined (id : GraphId)
  | fullShapeRequired (id : GraphId)
  | noSuchVariable (name : String)
  | noVariableValue (name : String)
  | noSuchNode (query_id : GraphId) (node : Nat)
  | cannotEstimateShape (id : GraphId) (arg : Nat) (axis : Nat)
  | differentDimension (id : GraphId) (arg : Nat) (axis : Nat) (expected given : Dim)
  | differentArgs (id : GraphId) (last_args args : List Nat)
  | differentRank (id : GraphId) (arg : Nat) (last_rank rank : Nat)
  | differentVariableType (variable_name : String) (expected : ValueType) (given : Option Value)
  | divideByZero (id : GraphId) (arg : Nat)
  deriving DecidableEq, Repr

/-- src/graphs/variable.rs `Variable::update` -/
def Variable.update (self : Variable) (value : Value) (ty : ValueType) :
    PRes GraphError Variable :=
  if self.ty = ty ∨ self.ty = .required then
    .ok { self with value := some value, ty := ty }
  else
    .err (.differentVariableType self.description self.ty (some value))

/-- src/graphs/variable.rs `Variable::expect_or_default` -/
def Variable.expect_or_default (self : Variable) (ty : ValueType) :
    PRes GraphError Variable :=
  if self.ty = ty then .ok self
  else if self.ty = .required then .ok { self with ty := ty }
  else .err (.differentVariableType self.description ty self.value)

/-- src/error.rs `ExternModelError` -/
inductive ExternModelError where
  | unknownGraph
  | malformedShape
  | unexpectedChild (model : String)
  deriving DecidableEq, Repr

/-- src/error.rs `NonExternModelError` -/
inductive NonExternModelError where
  | noGraph
  | modelNotFound
  | overrideChild
  | overrideGraph
  deriving DecidableEq, Repr

/-- src/error.rs `ModelError` -/
inductive ModelError where
  | modelNotFound
  | recursiveUsage
  deriving DecidableEq, Repr

/-- Modelled from the spec: `UseOrigin = Site(string) | User(string) | Local`
(spec §6). -/
inductive UseOrigin where
  | site (s : String)
  | user (s : String)
  | local
  deriving DecidableEq, Repr

/-- src/error.rs `CompileError`; the `OsError` and `ParseError` payloads are
irrelevant to the embedded pipeline (no filesystem, no parsing) and are
dropped. -/
inductive CompileError where
  | externModelError (error : ExternModelError) (model : String)
  | nonExternModelError (error : NonExternModelError) (model : String)
  | modelError (error : ModelError) (model : String) (origin : UseOrigin)
  | graphError (error : GraphError) (model : String)
  | osError
  | parseError
  deriving DecidableEq, Repr

abbrev GRes (α : Type) := PRes GraphError α
abbrev CRes (α : Type) := PRes CompileError α

/-! ## The parser AST consumed by the core (Modelled from the spec, §6) -/

/-- Modelled from the spec: `Dim = Fixed(u64) | Semantic(string) |
Expr{lhs, rhs, op}` with `op : + - × ÷` (spec §6). -/
inductive DimOp where
  | add
  | sub
  | mul
  | div
  deriving DecidableEq, Repr

/-- Modelled from the spec: the declared dimension of the AST (spec §6). -/
inductive AstDim where
  | fixed (n : Nat)
  | semantic (s : String)
  | expr (lhs rhs : AstDim) (op : DimOp)
  deriving DecidableEq, Repr

/-- Modelled from the spec: a declared per-arg shape, a list of dims; the
bundle pairs each shape with its declared `ArgIndex` (spec §6 and the
iteration `shapes.0.into_iter().enumerate()` in `Graph::adjust_shapes`). -/
abbrev AstShape := List AstDim

/-- Modelled from the spec: the declared output shape bundle of a graph
line. -/
abbrev AstShapes := List (Nat × AstShape)

/-- Modelled from the spec: `GraphPassArg = NodeArg([{node, arg}]) |
Keyword{name, value}` (spec §6). -/
structure NodeArgPair where
  node : Nat
  arg : Nat
  deriving DecidableEq, Repr

/-- Modelled from the spec: one argument of a graph pass (spec §6). -/
inductive GraphPassArg where
  | nodeArg (args : List NodeArgPair)
  | keyword (name : String) (value : Value)
  deriving DecidableEq, Repr

/-- Modelled from the spec: `GraphPassArg::is_named` tests that the argument
is a keyword with the given name (used by `get_flag` in
src/graphs/graph.rs). -/
def GraphPassArg.is_named (a : GraphPassArg) (name : String) : Bool :=
  match a with
  | .keyword n _ => n = name
  | .nodeArg _ => false

/-- Modelled from the spec: `GraphPassArg::unwrap_value` yields the keyword's
value and panics on a positional argument. -/
def GraphPassArg.unwrap_value : GraphPassArg → Option Value
  | .keyword _ v => some v
  | .nodeArg _ => none

/-- Modelled from the spec: `GraphPassArg::unwrap_name` yields the keyword's
name and panics on a positional argument. -/
def GraphPassArg.unwrap_name : GraphPassArg → Option String
  | .keyword n _ => some n
  | .nodeArg _ => none

/-- Modelled from the spec: `Variable` of the AST:
`{ name?, description, default?, is_model }` (spec §6). -/
structure AstVariable where
  name : Option String
  description : String
  default : Option Value
  is_model : Bool
  deriving DecidableEq, Repr

/-- Modelled from the spec: `Pass { name, repeat, args }` (spec §6). -/
structure AstPass where
  name : String
  rep : Nat
  args : List GraphPassArg
  deriving DecidableEq, Repr

mutual
/-- Modelled from the spec: `Model { name, is_ext, inner }` (spec §6);
called `ast::Model` in the sources. -/
inductive AstModel where
  | mk (name : String) (is_ext : Bool) (inner : AstModelInner)

/-- Modelled from the spec: `ModelInner { children, variables, graph }`
(spec §6). -/
inductive AstModelInner where
  | mk (children : List AstModel) (vars : List AstVariable)
      (graph : List AstGraphLine)

/-- Modelled from the spec: `GraphLine { id, inline?, passes, shapes? }`
(spec §6); called `ast::Graph` in the sources. -/
inductive AstGraphLine where
  | mk (id : Nat) (inline : Option AstModel) (passes : List AstPass)
      (shapes : Option AstShapes)
end

def AstModel.name : AstModel → String
  | .mk n _ _ => n

def AstModel.is_ext : AstModel → Bool
  | .mk _ e _ => e

def AstModel.inner : AstModel → AstModelInner
  | .mk _ _ i => i

def AstModelInner.children : AstModelInner → List AstModel
  | .mk c _ _ => c

def AstModelInner.vars : AstModelInner → List AstVariable
  | .mk _ v _ => v

def AstModelInner.graph : AstModelInner → List AstGraphLine
  | .mk _ _ g => g

def AstGraphLine.id : AstGraphLine → Nat
  | .mk i _ _ _ => i

def AstGraphLine.inline : AstGraphLine → Option AstModel
  | .mk _ i _ _ => i

def AstGraphLine.passes : AstGraphLine → List AstPass
  | .mk _ _ p _ => p

def AstGraphLine.shapes : AstGraphLine → Option AstShapes
  | .mk _ _ _ s => s

/-- Modelled from the spec: `Use { model, origin }` (spec §6). -/
structure AstUse where
  model : String
  origin : UseOrigin
  deriving DecidableEq, Repr

/-- Modelled from the spec: `File { uses, model }` (spec §6). -/
structure AstFile where
  uses : List AstUse
  model : AstModel

/-! ## Association-list embeddings of the std maps.

`HashMap`/`HashSet` are embedded as association lists (no method of the
sources iterates a hash map, so ordering is irrelevant); `BTreeMap` is
embedded as a key-sorted association list whose list order is its iteration
order, with first/last entries computed as key-minimum/maximum. -/

def alookup {κ α : Type} [DecidableEq κ] (l : List (κ × α)) (k : κ) : Option α :=
  (l.find? (fun p => p.1 = k)).map (·.2)

/-- Map insert: replaces the value of an existing key, else appends. -/
def ainsert {κ α : Type} [DecidableEq κ] (l : List (κ × α)) (k : κ) (v : α) :
    List (κ × α) :=
  match l with
  | [] => [(k, v)]
  | p :: t => if p.1 = k then (k, v) :: t else p :: ainsert t k v

def aremove {κ α : Type} [DecidableEq κ] (l : List (κ × α)) (k : κ) : List (κ × α) :=
  match l with
  | [] => []
  | p :: t => if p.1 = k then t else p :: aremove t k

def acontains {κ α : Type} [DecidableEq κ] (l : List (κ × α)) (k : κ) : Bool :=
  (alookup l k).isSome

/-- `BTreeMap::insert` for the node map: insertion keeps the list sorted by
the lexicographic `GraphId` order and replaces an equal key. -/
def binsertNode {α : Type} (l : List (GraphId × α)) (k : GraphId) (v : α) :
    List (GraphId × α) :=
  match l with
  | [] => [(k, v)]
  | p :: t =>
    if k = p.1 then (k, v) :: t
    else if GraphId.lt k p.1 then (k, v) :: p :: t
    else p :: binsertNode t k v

/-- `BTreeMap::insert` for a shape bundle keyed by `ArgIndex`. -/
def binsertArg {α : Type} (l : List (Nat × α)) (k : Nat) (v : α) : List (Nat × α) :=
  match l with
  | [] => [(k, v)]
  | p :: t =>
    if k = p.1 then (k, v) :: t
    else if k < p.1 then (k, v) :: p :: t
    else p :: binsertArg t k v

/-- `BTreeMap::last_key_value`: the maximal key (on the reachable, sorted
states this is the last list entry). -/
def lastEntry {α : Type} (l : List (GraphId × α)) : Option (GraphId × α) :=
  match l with
  | [] => none
  | p :: t => some (t.foldl (fun acc q => if GraphId.lt acc.1 q.1 then q else acc) p)

/-- `BTreeMap::first_key_value`: the minimal key. -/
def firstEntry {α : Type} (l : List (GraphId × α)) : Option (GraphId × α) :=
  match l with
  | [] => none
  | p :: t => some (t.foldl (fun acc q => if GraphId.lt q.1 acc.1 then q else acc) p)

/-! ## The expression map (Modelled from the spec: symengine
`ExpressionMap<DimKey>`, §4.1) -/

/-- Modelled from the spec: the key-binding store `ExpressionMap<DimKey>`: a
substitution map keyed by the opaque `DimKey` (spec §4.1). -/
abbrev KeyMap := List (DimKey × SExpr)

/-- Modelled from the spec: `ExpressionMap::eval_once` substitutes every
bound symbol one level; the symbol of a binding is its key's `to_string`
encoding, so input/non-input placeholders of the same name share a symbol
(spec §4.3). -/
def KeyMap.eval_once (keys : KeyMap) (e : SExpr) : SExpr :=
  e.substOnce (fun s => (keys.find? (fun p => p.1.to_string = s)).map (·.2))

/-! ## Graph and Node (src/graphs/graph.rs, src/graphs/node.rs) -/

mutual
/-- src/graphs/graph.rs `Graph` (fields in source order: variables,
variable_aliases, keys, graphs, nodes, shape_state, is_ext). -/
inductive Graph where
  | mk (vars : List (String × Variable))
      (variable_aliases : List (String × String))
      (keys : KeyMap)
      (graphs : List (String × Graph))
      (nodes : List (GraphId × Node))
      (shape_state : ShapeState)
      (is_ext : Bool)

/-- src/graphs/node.rs `Node` -/
inductive Node where
  | mk (name : String) (graph : Option Graph) (inputs : List GraphIdArg)
      (shapes : Shapes)
end

def Graph.vars : Graph → List (String × Variable)
  | .mk v _ _ _ _ _ _ => v

def Graph.variable_aliases : Graph → List (String × String)
  | .mk _ a _ _ _ _ _ => a

def Graph.keys : Graph → KeyMap
  | .mk _ _ k _ _ _ _ => k

def Graph.graphs : Graph → List (String × Graph)
  | .mk _ _ _ g _ _ _ => g

def Graph.nodes : Graph → List (GraphId × Node)
  | .mk _ _ _ _ n _ _ => n

def Graph.shape_state : Graph → ShapeState
  | .mk _ _ _ _ _ s _ => s

def Graph.is_ext : Graph → Bool
  | .mk _ _ _ _ _ _ e => e

def Graph.withVars (g : Graph) (v : List (String × Variable)) : Graph :=
  .mk v g.variable_aliases g.keys g.graphs g.nodes g.shape_state g.is_ext

def Graph.withAliases (g : Graph) (a : List (String × String)) : Graph :=
  .mk g.vars a g.keys g.graphs g.nodes g.shape_state g.is_ext

def Graph.withKeys (g : Graph) (k : KeyMap) : Graph :=
  .mk g.vars g.variable_aliases k g.graphs g.nodes g.shape_state g.is_ext

def Graph.withGraphs (g : Graph) (gs : List (String × Graph)) : Graph :=
  .mk g.vars g.variable_aliases g.keys gs g.nodes g.shape_state g.is_ext

def Graph.withNodes (g : Graph) (n : List (GraphId × Node)) : Graph :=
  .mk g.vars g.variable_aliases g.keys g.graphs n g.shape_state g.is_ext

def Graph.withState (g : Graph) (s : ShapeState) : Graph :=
  .mk g.vars g.variable_aliases g.keys g.graphs g.nodes s g.is_ext

def Node.name : Node → String
  | .mk n _ _ _ => n

def Node.graph : Node → Option Graph
  | .mk _ g _ _ => g

def Node.inputs : Node → List GraphIdArg
  | .mk _ _ i _ => i

def Node.shapes : Node → Shapes
  | .mk _ _ _ s => s

def Node.withInputs (n : Node) (i : List GraphIdArg) : Node :=
  .mk n.name n.graph i n.shapes

def Node.withShapes (n : Node) (s : Shapes) : Node :=
  .mk n.name n.graph n.inputs s

/-- src/graphs/node.rs `Node::INTRINSIC_*` constants and
`impl Default for Node` (name is `INTRINSIC_GENERIC`, the empty string). -/
def Node.default : Node := .mk "" none [] .dynamic

/-- src/graphs/graph.rs `Graph::new` -/
def Graph.new (is_ext : Bool) : Graph :=
  .mk [] [] [] [] [] ShapeState.default is_ext

/-- src/graphs/graph.rs `Graph::new_child`: a fresh graph inheriting only the
child-graph table. -/
def Graph.new_child (g : Graph) : Graph :=
  .mk [] [] [] g.graphs [] ShapeState.default false

/-! ## Shape operations (src/graphs/shape.rs) -/

/-- src/graphs/shape.rs `Shape::product`: the dims of a fixed shape collapse
to the single `Expr` of their product, seeded with the constant `1`
(`fold(1.0.into(), Mul::mul)`). -/
def Shape.product : Shape → Shape
  | .dynamic => .dynamic
  | .fixed dims =>
    .fixed [.expr (dims.foldl (fun acc d => .mul acc d.to_expr) (.const 1))]

/-- src/graphs/shape.rs `Shapes::product` -/
def Shapes.product : Shapes → Shapes
  | .dynamic => .dynamic
  | .fixed shapes => .fixed (shapes.map (fun p => (p.1, p.2.product)))

/-- src/graphs/shape.rs `Shape::validate_rank` -/
def Shape.validate_rank (self last : Shape) (id : GraphId) (arg : Nat) :
    GRes Bool :=
  match self, last with
  | .fixed dims, .fixed last_dims =>
    if dims.length = last_dims.length then .ok true
    else .err (.differentRank id arg last_dims.length dims.length)
  | _, _ => .ok false

/-- src/graphs/shape.rs `Shapes::validate_args_rank`.  The per-arg results
are folded with `Ok(a? == b?)` — boolean equality seeded with `true`, exactly
as in the source. -/
def Shapes.validate_args_rank (self last : Shapes) (id : GraphId) : GRes Bool :=
  match self, last with
  | .fixed shapes, .fixed last_shapes =>
    let args := shapes.map (·.1)
    let last_args := last_shapes.map (·.1)
    if args = last_args then
      ((shapes.zip (last_shapes.map (·.2))).map
          (fun p => p.1.2.validate_rank p.2 id p.1.1)).foldl
        (fun a b =>
          match a, b with
          | .ok x, .ok y => .ok (x = y)
          | .err e, _ => .err e
          | .ok _, .err e => .err e
          | .fatal, _ => .fatal
          | .nofuel, _ => .nofuel
          | _, .fatal => .fatal
          | _, .nofuel => .nofuel)
        (.ok true)
    else .err (.differentArgs id last_args args)
  | _, _ => .ok false

/-- src/graphs/shape.rs `Shapes::unwrap_shapes` (panics unless `Fixed`). -/
def Shapes.unwrap_shapes : Shapes → Option (List (Nat × Shape))
  | .fixed shapes => some shapes
  | .dynamic => none

/-- src/graphs/shape.rs `Shape::unwrap_dims` (panics unless `Fixed`). -/
def Shape.unwrap_dims : Shape → Option (List Dim)
  | .fixed dims => some dims
  | .dynamic => none

/-- src/graphs/shape.rs `Shapes::index_args` -/
def Shapes.index_args (self : Shapes) (args : List Nat) : Shapes :=
  match self with
  | .dynamic => .dynamic
  | .fixed shapes => .fixed (shapes.filter (fun p => args.contains p.1))

/-- src/graphs/shape.rs `Shapes::append`: the right bundle's shapes are
re-inserted at contiguous indices biased by the left bundle's size. -/
def Shapes.append (self other : Shapes) : Shapes :=
  match self, other with
  | .fixed shapes, .fixed others =>
    .fixed ((others.enum.map (fun p => (p.1, p.2.2))).foldl
      (fun acc p => binsertArg acc (p.1 + shapes.length) p.2) shapes)
  | _, _ => .dynamic

/-- src/graphs/shape.rs `Shapes::try_archive_placeholders`: every placeholder
dim of a fixed bundle is renamed to `"_node_<node>_<name>"` in place and the
renamed names are yielded in iteration order.  The generator is embedded as
the pair (renamed bundle, yielded names). -/
def Shapes.try_archive_placeholders (self : Shapes) (id : GraphId) :
    Shapes × List String :=
  match self with
  | .dynamic => (.dynamic, [])
  | .fixed shapes =>
    let step := fun (d : Dim) =>
      match d with
      | .key (.placeholder ph b) =>
        let ph' := "_node_" ++ toString id.node ++ "_" ++ ph
        (Dim.key (.placeholder ph' b), [ph'])
      | d => (d, [])
    let rows : List ((Nat × Shape) × List String) := shapes.map (fun p =>
      match p.2 with
      | .fixed dims =>
        let converted : List (Dim × List String) := dims.map step
        ((p.1, Shape.fixed (converted.map (·.1))), (converted.map (·.2)).flatten)
      | s => ((p.1, s), []))
    (.fixed (rows.map (·.1)), (rows.map (·.2)).flatten)

/-! ## Graph methods (src/graphs/graph.rs) -/

/-- src/graphs/graph.rs `Graph::get_last_node_id` (`unwrap` on an empty node
map is a panic). -/
def Graph.get_last_node_id (g : Graph) : Option GraphId :=
  (lastEntry g.nodes).map (·.1)

/-- src/graphs/graph.rs `Graph::get_last_node_name` -/
def Graph.get_last_node_name (g : Graph) : Option String :=
  (lastEntry g.nodes).map (·.2.name)

/-- src/graphs/graph.rs `Graph::get_first_shapes` -/
def Graph.get_first_shapes (g : Graph) : Option Shapes :=
  (firstEntry g.nodes).map (·.2.shapes)

/-- src/graphs/graph.rs `Graph::get_last_specific_node_id`: the most recent
recorded id with the given node number (reverse key order). -/
def Graph.get_last_specific_node_id (g : Graph) (node : Nat) (query_id : GraphId) :
    GRes GraphId :=
  match g.nodes.reverse.find? (fun p => p.1.node = node) with
  | some p => .ok p.1
  | none => .err (.noSuchNode query_id node)

/-- src/graphs/graph.rs `Graph::set_last_shapes` -/
def Graph.set_last_shapes (g : Graph) (shapes : Shapes) : Option Graph :=
  (lastEntry g.nodes).map (fun p =>
    g.withNodes (ainsert g.nodes p.1 (p.2.withShapes shapes)))

/-- src/graphs/graph.rs `Graph::eval_dim_with_keys`: a local (non-input)
placeholder key is returned unchanged, everything else is substituted one
level through the bindings. -/
def Graph.eval_dim_with_keys (keys : KeyMap) (dim : Dim) : Dim :=
  match dim with
  | .key (.placeholder _ false) => dim
  | _ => .expr (keys.eval_once dim.to_expr)

/-- src/graphs/graph.rs `Graph::eval_dim` -/
def Graph.eval_dim (g : Graph) (dim : Dim) : Dim :=
  Graph.eval_dim_with_keys g.keys dim

/-- src/graphs/graph.rs `Graph::eval_dim_for_output`: placeholder keys are
substituted one level through the bindings; variable keys and expressions are
returned unchanged. -/
def Graph.eval_dim_for_output (g : Graph) (dim : Dim) : Dim :=
  match dim with
  | .key k =>
    match k with
    | .placeholder _ _ => .expr (KeyMap.eval_once g.keys k.to_expr)
    | _ => dim
  | _ => dim

/-- Fallible `collect` over an iterator of `Option`s, as Rust's
`collect::<Option<Vec<_>>>`: the first `None` (panic site) wins. -/
def collectO {α β : Type} (f : α → Option β) : List α → Option (List β)
  | [] => some []
  | a :: t => (f a).bind fun b => (collectO f t).map fun bs => b :: bs

/-- src/graphs/graph.rs `Graph::get_shapes` (`unreachable!` on any `Dynamic`
bundle or per-arg shape is a panic, embedded as `none`). -/
def Graph.get_shapes (g : Graph) : Option (List (GraphId × List (List Dim))) :=
  collectO
    (fun (p : GraphId × Node) =>
      (match p.2.shapes with
       | .dynamic => none
       | .fixed shapes =>
         collectO
           (fun (q : Nat × Shape) =>
             match q.2 with
             | .dynamic => none
             | .fixed dims => some (dims.map g.eval_dim_for_output))
           shapes).map
        (fun shapes => (p.1, shapes)))
    g.nodes

/-- src/graphs/graph.rs `Graph::update_variable`, `Some(name)` branch: update
the stored variable, register the alias, and bind
`DimKey::Variable(name) → Expr(uint)` when the updated value is a `UInt`. -/
def Graph.update_variable_named (g : Graph) (name : String) (al : Option String)
    (value : Value) (ty : ValueType) : GRes Graph :=
  match alookup g.vars name with
  | some vr => do
    let vr ← vr.update value ty
    let g := g.withVars (ainsert g.vars name vr)
    let g :=
      match al with
      | some a => g.withAliases (ainsert g.variable_aliases a name)
      | none => g
    let g :=
      match vr.unwrap_uint with
      | some u => g.withKeys (ainsert g.keys (.var name) (.const u))
      | none => g
    .ok g
  | none => .err (.noSuchVariable name)

/-- src/graphs/graph.rs `Graph::update_variable`: dispatch by name, else by
alias (resolved through the alias map, else treated as the description
itself); `unreachable!` when neither is given. -/
def Graph.update_variable (g : Graph) (name al : Option String) (value : Value)
    (ty : ValueType) : GRes Graph :=
  match name with
  | some name => g.update_variable_named name al value ty
  | none =>
    match al with
    | some a =>
      match alookup g.variable_aliases a with
      | some n => g.update_variable_named n none value ty
      | none => g.update_variable_named a none value ty
    | none => .fatal

/-- src/graphs/graph.rs `Graph::add_variable` -/
def Graph.add_variable (g : Graph) (al : Option String) (vr : Variable) :
    GRes Graph :=
  let name := vr.description
  if acontains g.vars name then
    let g :=
      match vr.unwrap_uint with
      | some u => g.withKeys (ainsert g.keys (.var name) (.const u))
      | none => g
    match vr.value with
    | some value => g.update_variable (some vr.description) al value vr.ty
    | none => .ok g
  else
    let g :=
      match al with
      | some a => g.withAliases (ainsert g.variable_aliases a name)
      | none => g
    let g :=
      match vr.unwrap_uint with
      | some u => g.withKeys (ainsert g.keys (.var name) (.const u))
      | none => g
    .ok (g.withVars (ainsert g.vars name vr))

/-- src/graphs/graph.rs `Graph::add_graph` -/
def Graph.add_graph (g : Graph) (name : String) (child : Graph) : Graph :=
  g.withGraphs (ainsert g.graphs name child)

/-- src/graphs/graph.rs `Graph::find_graph` (the child-graph table lookup). -/
def Graph.find_graph (g : Graph) (name : String) : Option Graph :=
  alookup g.graphs name

/-- src/graphs/graph.rs `Graph::update_dim`: unify the sub-graph's expected
`dim` against the caller's `ground`. -/
def Graph.update_dim (g : Graph) (id : GraphId) (arg : Nat) (dim ground : Dim)
    (axis : Nat) : GRes (Dim × Graph) :=
  match dim with
  | .key (.placeholder ph ph_is_input) =>
    let key := DimKey.placeholder ph ph_is_input
    let check : GRes Unit :=
      match alookup g.keys key with
      | some bound =>
        if ¬ bound.eqExpr key.to_expr ∧ ¬ bound.eqExpr ground.to_expr then
          .err (.differentDimension id arg axis (.expr bound) ground)
        else .ok ()
      | none => .ok ()
    check.bind (fun _ =>
      match ground with
      | .key (.placeholder gr ground_is_input) =>
        if ph = gr then
          .ok (.key (.placeholder gr ground_is_input), g)
        else if ph_is_input ∧ ground_is_input then
          let groundE := (DimKey.placeholder gr ph_is_input).to_expr
          .ok (.expr groundE, g.withKeys (ainsert g.keys key groundE))
        else .err (.cannotEstimateShape id arg axis)
      | _ =>
        let groundE := ground.to_expr
        .ok (.expr groundE, g.withKeys (ainsert g.keys key groundE)))
  | _ =>
    let dimE := g.eval_dim dim
    let ground_eval := g.eval_dim ground
    if dimE.eqDim ground_eval then .ok (ground, g)
    else .err (.differentDimension id arg axis dimE ground_eval)

/-- src/graphs/graph.rs `Graph::find_var`: placeholder-input, then
placeholder-local, then alias → variable; else coin a new placeholder when
the shape state allows it. -/
def Graph.find_var (g : Graph) (var0 : String) (is_new_var_created : Bool) :
    GRes (Dim × Graph × Bool) :=
  let key := DimKey.placeholder var0 true
  if acontains g.keys key then .ok (.key key, g, is_new_var_created)
  else
    let key := DimKey.placeholder var0 false
    if acontains g.keys key then .ok (.key key, g, is_new_var_created)
    else
      let v :=
        match alookup g.variable_aliases var0 with
        | some a => a
        | none => var0
      match alookup g.vars v with
      | some graph_var => do
        let graph_var ← graph_var.expect_or_default .uint
        .ok (.key (.var v), g.withVars (ainsert g.vars v graph_var), is_new_var_created)
      | none =>
        if g.shape_state.is_new_var_available then
          match g.get_last_node_id with
          | some last_id =>
            let key := DimKey.placeholder v (decide (last_id.node = 0))
            .ok (.key key, g.withKeys (ainsert g.keys key key.to_expr), true)
          | none => .fatal
        else
          match g.get_last_node_id with
          | some last_id => .err (.fullShapeRequired last_id)
          | none => .fatal

/-- src/graphs/graph.rs `Graph::convert_dim`: `Fixed(n)` → `Expr(n)`,
`Semantic(var)` → `find_var`, arithmetic recursively, with the divide-by-zero
check evaluating the converted right-hand side first. -/
def Graph.convert_dim (g : Graph) (dim : AstDim) (arg : Nat) (is_new : Bool) :
    GRes (Dim × Graph × Bool) :=
  match dim with
  | .fixed n => .ok (.expr (.const n), g, is_new)
  | .semantic v => g.find_var v is_new
  | .expr lhs rhs op => do
    let (l, g, is_new) ← g.convert_dim lhs arg is_new
    let (r, g, is_new) ← g.convert_dim rhs arg is_new
    match op with
    | .add => .ok (l.addDim r, g, is_new)
    | .sub => .ok (l.subDim r, g, is_new)
    | .mul => .ok (l.mulDim r, g, is_new)
    | .div =>
      match g.eval_dim r with
      | .expr re =>
        if re.eqExpr (.const 0) then
          match g.get_last_node_id with
          | some lid => .err (.divideByZero lid arg)
          | none => .fatal
        else .ok (l.divDim r, g, is_new)
      | _ => .ok (l.divDim r, g, is_new)

/-- src/graphs/graph.rs `Graph::get_last_shapes`.  The `0 =>` arm of the
source re-enters with `None`, which reduces to the last node's own shapes;
that single unrolling is inlined as the `inputs1` default. -/
def Graph.get_last_shapes (g : Graph) (inputs : Option (List GraphIdArg)) :
    Option Shapes := do
  let (last_id, last_node) ← lastEntry g.nodes
  let inputs0 := inputs.getD [GraphIdArg.with_id last_id]
  let inputs1 := if inputs0.isEmpty then [GraphIdArg.with_id last_id] else inputs0
  match inputs1 with
  | [ia] =>
    match ia.arg with
    | some a => (alookup g.nodes ia.id).map (fun n => n.shapes.index_args [a])
    | none =>
      if ia.id = last_id then some last_node.shapes
      else (alookup g.nodes ia.id).map (·.shapes)
  | _ =>
    inputs1.foldlM
      (fun (acc : Shapes) ia => do
        let n ← alookup g.nodes ia.id
        let a ← ia.arg
        pure (acc.append (n.shapes.index_args [a])))
      (Shapes.fixed [])

/-- src/graphs/graph.rs `Graph::set_last_shapes_from_child`: archive the
child's placeholders, registering every renamed name through `find_var`, and
install the bundle as the last node's shapes. -/
def Graph.set_last_shapes_from_child (self : Graph) (shapes : Shapes)
    (id : GraphId) : GRes (Shapes × Graph) :=
  match shapes with
  | .dynamic => .err (.fullShapeRequired id)
  | .fixed _ => do
    let (renamed, names) := shapes.try_archive_placeholders id
    let self ← names.foldlM
      (fun (g : Graph) ph => do
        let (_, g, _) ← g.find_var ph false
        pure g)
      self
    let self ← PRes.ofOption (self.set_last_shapes renamed)
    pure (renamed, self)

/-- src/graphs/graph.rs `Graph::apply_shapes_as_input`: unify the caller's
current shapes (`self`) against the sub-graph's first-node shapes
(`target`), re-evaluate the sub-graph's last shapes, and archive the
remaining placeholders; the `unimplemented!()` fall-through is a panic. -/
def Graph.apply_shapes_as_input (self target : Graph) (inputs : List GraphIdArg)
    (id : GraphId) : GRes (Shapes × Graph × Graph) := do
  let shapes ← PRes.ofOption (self.get_last_shapes (some inputs))
  let target_shapes ← PRes.ofOption target.get_first_shapes
  let b ← target_shapes.validate_args_rank shapes id
  if b then do
    let pairsSelf ← PRes.ofOption shapes.unwrap_shapes
    let pairsTarget ← PRes.ofOption target_shapes.unwrap_shapes
    let (rows, target) ← (pairsSelf.zip (pairsTarget.map (·.2))).foldlM
      (fun (acc : List (Nat × Shape) × Graph) p => do
        let ((arg, shape), target_shape) := p
        let dims ← PRes.ofOption shape.unwrap_dims
        let target_dims ← PRes.ofOption target_shape.unwrap_dims
        let (newdims, tg) ← (dims.zip target_dims).enum.foldlM
          (fun (acc2 : List Dim × Graph) q => do
            let (axis, (dim, target_dim)) := q
            let (d, tg) ← acc2.2.update_dim id arg target_dim dim axis
            pure (acc2.1 ++ [d], tg))
          ([], acc.2)
        pure (acc.1 ++ [(arg, Shape.fixed newdims)], tg))
      ([], target)
    let tls ← PRes.ofOption (target.get_last_shapes none)
    let rows ←
      match tls with
      | .dynamic => pure rows
      | .fixed tshapes =>
        tshapes.mapM (fun p => do
          let dims ← PRes.ofOption p.2.unwrap_dims
          pure (p.1, Shape.fixed (dims.map target.eval_dim)))
    let (archived, _) := (Shapes.fixed rows).try_archive_placeholders id
    pure (archived, self, target)
  else
    match target_shapes with
    | .dynamic => pure (shapes, self, target)
    | _ =>
      if inputs.isEmpty ∧ id.is_first then do
        let (s, self) ← self.set_last_shapes_from_child target_shapes id
        pure (s, self, target)
      else .fatal

/-- src/graphs/graph.rs `get_flag`: reads the optional boolean `transform`
keyword argument. -/
def get_flag (args : List GraphPassArg) : GRes Bool :=
  match args.find? (fun a => a.is_named "transform") with
  | none => .ok false
  | some a =>
    match a.unwrap_value with
    | some (.bool v) => .ok v
    | some other =>
      match a.unwrap_name with
      | some n => .err (.differentVariableType n .bool (some other))
      | none => .fatal
    | none => .fatal

/-- src/graphs/graph.rs `Graph::attach_model`: record positional inputs
(ignored when `repeat > 0`), apply keyword arguments to the sub-graph,
apply the caller's shapes as the sub-graph's input, and inherit the
sub-graph's shape state. -/
def Graph.attach_model (self : Graph) (id : GraphId) (model_name : String)
    (graph : Graph) (args : List GraphPassArg) : CRes (Node × Graph) := do
  let (inputs, graph) ← args.foldlM
    (fun (acc : List GraphIdArg × Graph) arg =>
      match arg with
      | .nodeArg nas =>
        if id.rep = 0 then
          nas.foldlM
            (fun (acc2 : List GraphIdArg × Graph) na =>
              match self.get_last_specific_node_id na.node id with
              | .ok arg_id => .ok (acc2.1 ++ [⟨arg_id, some na.arg⟩], acc2.2)
              | .err e => .err (CompileError.graphError e model_name)
              | .fatal => .fatal
              | .nofuel => .nofuel)
            acc
        else .ok acc
      | .keyword name value =>
        let ty := ValueType.new (some value) false
        match acc.2.update_variable none (some name) value ty with
        | .ok g => .ok (acc.1, g)
        | .err e => .err (.graphError e model_name)
        | .fatal => .fatal
        | .nofuel => .nofuel)
    ([], graph)
  let (shapes, self, graph) ←
    (Graph.apply_shapes_as_input self graph inputs id).mapErr
      (fun e => CompileError.graphError e model_name)
  let self := self.withState graph.shape_state
  pure (Node.mk model_name (some graph) inputs shapes, self)

/-- src/graphs/graph.rs `Graph::attach`: first-node rule, sequencing rule,
dispatch on the intrinsic name or sub-model call, default input edge, node
insertion. -/
def Graph.attach (g : Graph) (id : GraphId) (name : String) (graphOpt : Option Graph)
    (args : List GraphPassArg) : CRes Graph :=
  let lastRes : CRes (Option GraphId) :=
    if g.nodes.isEmpty then
      if id.is_input then .ok none
      else .err (.graphError .firstNodeNotFound name)
    else .ok ((lastEntry g.nodes).map (·.1))
  lastRes.bind fun last_id =>
  let gate : CRes Unit :=
    match last_id with
    | some l =>
      if ¬ id.validate l then .err (.graphError (.unvalidNodeId l id) name)
      else .ok ()
    | none => .ok ()
  gate.bind fun _ =>
  let dispatch : CRes (Node × Graph) :=
    if name = "dynamic" then
      match get_flag args with
      | .ok true => .ok (Node.default, g.withState .transform)
      | .ok false =>
        if g.nodes.isEmpty then .ok (Node.default, g.withState (.required .full))
        else .err (.graphError (.fullShapeRequired id) name)
      | .err e => .err (.graphError e name)
      | .fatal => .fatal
      | .nofuel => .nofuel
    else if name = "fixed" then
      match g.shape_state with
      | .transform => .err (.graphError (.shapeNotDefined id) name)
      | _ => .ok (Node.mk name none [] .dynamic, g.withState (.required .weak))
    else if name = "identity" then
      match last_id with
      | some _ =>
        let g := g.withState (.fixed .full)
        match g.get_last_shapes none with
        | some s => .ok (Node.mk name none [] s, g)
        | none => .fatal
      | none => .err (.graphError .inputNodeNotFound name)
    else
      if id.is_input then
        .ok (Node.mk name none [] .dynamic, g.withState (.required .weak))
      else
        match graphOpt with
        | some sub => g.attach_model id name sub args
        | none =>
          match alookup g.graphs name with
          | some sub => g.attach_model id name sub args
          | none => .err (.nonExternModelError .modelNotFound name)
  dispatch.bind fun r =>
  let node := r.1
  let g := r.2
  let node :=
    if node.inputs.isEmpty then
      node.withInputs
        (match last_id with
         | some l => [GraphIdArg.with_id l]
         | none => [])
    else node
  .ok (g.withNodes (binsertNode g.nodes id node))

/-- src/graphs/graph.rs `Graph::adjust_shapes`: convert the declared bundle
checking the arg indices are positional, product both sides under
`Transform`, validate ranks, unify pair-wise via `update_dim`, install the
converted bundle and set the final shape state. -/
def Graph.adjust_shapes (g : Graph) (declared : AstShapes) : CRes Graph :=
  let conv : CRes (List (Nat × Shape) × Graph × Bool) :=
    declared.enum.foldlM
      (fun (acc : List (Nat × Shape) × Graph × Bool) p =>
        let (pairsAcc, g, flag) := acc
        let (arg_ground, (arg, shape)) := p
        if arg_ground ≠ arg then
          match g.get_last_node_id, g.get_last_node_name with
          | some lid, some lname =>
            .err (.graphError (.unvalidNodeArg lid arg_ground arg) lname)
          | _, _ => .fatal
        else
          let inner : GRes (List Dim × Graph × Bool) :=
            shape.foldlM
              (fun (acc2 : List Dim × Graph × Bool) d =>
                (acc2.2.1.convert_dim d arg acc2.2.2).bind fun r =>
                  .ok (acc2.1 ++ [r.1], r.2.1, r.2.2))
              ([], g, flag)
          match inner with
          | .ok (dims, g, flag) => .ok (pairsAcc ++ [(arg, Shape.fixed dims)], g, flag)
          | .err e =>
            match g.get_last_node_name with
            | some lname => .err (.graphError e lname)
            | none => .fatal
          | .fatal => .fatal
          | .nofuel => .nofuel)
      ([], g, false)
  conv.bind fun r =>
  let pairs := r.1
  let g := r.2.1
  let is_new_var_created := r.2.2
  let shapes := Shapes.fixed pairs
  let shapes_to := shapes
  match lastEntry g.nodes with
  | none => .fatal
  | some (id, last_node) =>
    let model := last_node.name
    let last_shapes := last_node.shapes
    let (shapes, last_shapes) :=
      if g.shape_state = .transform then (shapes.product, last_shapes.product)
      else (shapes, last_shapes)
    let validated : CRes Graph :=
      match shapes.validate_args_rank last_shapes id with
      | .ok true =>
        match last_shapes.unwrap_shapes, shapes.unwrap_shapes with
        | some lastPairs, some newPairs =>
          (lastPairs.zip (newPairs.map (·.2))).foldlM
            (fun (g : Graph) p =>
              let ((arg, last_shape), shape) := p
              match last_shape.unwrap_dims, shape.unwrap_dims with
              | some last_dims, some dims =>
                (last_dims.zip dims).enum.foldlM
                  (fun (g : Graph) q =>
                    let (axis, (last_dim, dim)) := q
                    match g.update_dim id arg last_dim dim axis with
                    | .ok (_, g) => .ok g
                    | .err e => .err (CompileError.graphError e model)
                    | .fatal => .fatal
                    | .nofuel => .nofuel)
                  g
              | _, _ => .fatal)
            g
        | _, _ => .fatal
      | .ok false => .ok g
      | .err e => .err (.graphError e model)
      | .fatal => .fatal
      | .nofuel => .nofuel
    validated.bind fun g =>
    match g.set_last_shapes shapes_to with
    | none => .fatal
    | some g =>
      .ok (g.withState (.fixed (if is_new_var_created then .weak else .full)))

/-- src/graphs/graph.rs `Graph::finalize`: clear the child-graph table and
require the `Fixed(Full)` state. -/
def Graph.finalize (g : Graph) : CRes Graph :=
  let g := g.withGraphs []
  match g.shape_state with
  | .fixed .full => .ok g
  | _ =>
    match g.get_last_node_id, g.get_last_node_name with
    | some lid, some lname => .err (.graphError (.fullShapeRequired lid) lname)
    | _, _ => .fatal

/-! ## The compile pipeline (src/compile.rs) and the registry
(src/graphs/root.rs).

The mutual recursion registry ↔ file-compile is bounded by an explicit fuel
counter; every `0` arm yields `nofuel`, which is no behaviour of the
program. -/

/-- src/compile.rs `impl Compile for ast::Variable` -/
def variableCompile (v : AstVariable) : String × Variable :=
  let name := v.name.getD v.description
  (name, ⟨v.description, ValueType.new v.default v.is_model, v.default⟩)

/-- src/compile.rs: the pass/repeat double loop of `ast::Graph::compile`;
`inline.take()` hands the inline model to the first `attach` only. -/
def attachPasses (g : Graph) (inl : Option Graph) (node : Nat)
    (passes : List AstPass) : CRes Graph :=
  ((passes.enum.foldlM
    (fun (acc : Graph × Option Graph) p =>
      let (pass_idx, pass) := p
      (List.range pass.rep).foldlM
        (fun (acc2 : Graph × Option Graph) rep =>
          let id : GraphId := ⟨node, pass_idx, rep⟩
          (acc2.1.attach id pass.name acc2.2 pass.args).bind fun g =>
            .ok (g, none))
        acc)
    (g, inl)) : CRes (Graph × Option Graph)).bind fun acc => .ok acc.1

/-- src/graphs/root.rs `GraphRoot`: the compiled-graphs cache, the
recursion-guard set and the pending AST prefab map. -/
structure RootState where
  graphs : List (String × Graph)
  compiling : List String
  prefabs : List (String × AstFile)

mutual
/-- src/graphs/root.rs `GraphRoot::find_graph` -/
def findGraph : Nat → RootState → String → UseOrigin → RootState × CRes Graph
  | 0, rs, _, _ => (rs, .nofuel)
  | fuel + 1, rs, name, origin =>
    match alookup rs.graphs name with
    | some g => (rs, .ok g)
    | none =>
      if rs.compiling.contains name then
        (rs, .err (.modelError .recursiveUsage name origin))
      else loadGraph fuel rs name origin

/-- src/graphs/root.rs `GraphRoot::load_graph`.  The loader result is
propagated with `?` before `compiling.remove(name)` runs, exactly as the
source does, so an `Err` leaves the name in `compiling`. -/
def loadGraph : Nat → RootState → String → UseOrigin → RootState × CRes Graph
  | 0, rs, _, _ => (rs, .nofuel)
  | fuel + 1, rs, name, origin =>
    if rs.compiling.contains name then
      (rs, .err (.modelError .recursiveUsage name origin))
    else
      let rs1 := { rs with compiling := name :: rs.compiling }
      let loaded : RootState × CRes Graph :=
        match origin with
        | .site _ => (rs1, .fatal)
        | .user _ => (rs1, .fatal)
        | .local => loadGraphLocal fuel rs1 name
      match loaded with
      | (rs2, .ok model) =>
        ({ rs2 with
            compiling := rs2.compiling.erase name,
            graphs := ainsert rs2.graphs name model },
         .ok model)
      | other => other

/-- src/graphs/root.rs `GraphRoot::load_graph_local`: the prefab AST is
consumed (removed) and compiled. -/
def loadGraphLocal : Nat → RootState → String → RootState × CRes Graph
  | 0, rs, _ => (rs, .nofuel)
  | fuel + 1, rs, name =>
    match alookup rs.prefabs name with
    | some ast => fileCompile fuel { rs with prefabs := aremove rs.prefabs name } ast
    | none => (rs, .err (.modelError .modelNotFound name .local))

/-- src/compile.rs `impl Compile for ast::File`: resolve the uses into the
child-graph table, then compile the model against it. -/
def fileCompile : Nat → RootState → AstFile → RootState × CRes Graph
  | 0, rs, _ => (rs, .nofuel)
  | fuel + 1, rs, f =>
    let g := Graph.new f.model.is_ext
    match compileUses fuel rs f.uses g with
    | (rs, .ok g) => (rs, (modelCompile fuel f.model g).bind fun r => .ok r.2)
    | (rs, .err e) => (rs, .err e)
    | (rs, .fatal) => (rs, .fatal)
    | (rs, .nofuel) => (rs, .nofuel)

/-- src/compile.rs: the `for model in self.uses` loop of
`ast::File::compile` together with `impl Compile for ast::Use`. -/
def compileUses : Nat → RootState → List AstUse → Graph → RootState × CRes Graph
  | 0, rs, _, _ => (rs, .nofuel)
  | _ + 1, rs, [], g => (rs, .ok g)
  | fuel + 1, rs, u :: rest, g =>
    match findGraph fuel rs u.model u.origin with
    | (rs, .ok use_g) => compileUses fuel rs rest (g.add_graph u.model use_g)
    | (rs, .err e) => (rs, .err e)
    | (rs, .fatal) => (rs, .fatal)
    | (rs, .nofuel) => (rs, .nofuel)

/-- src/compile.rs `impl Compile for ast::Model`: extern check or override
lookup or fresh child with recursively compiled children, then variables,
then graph lines, then `finalize` for non-extern non-override models. -/
def modelCompile : Nat → AstModel → Graph → CRes (String × Graph)
  | 0, _, _ => .nofuel
  | fuel + 1, m, parent =>
    let prefabRes : CRes (Graph × Bool) :=
      if m.is_ext then
        match m.inner.children with
        | c :: _ => .err (.externModelError (.unexpectedChild c.name) m.name)
        | [] =>
          if m.inner.graph.length ≠ 2 then
            .err (.externModelError .unknownGraph m.name)
          else .ok (Graph.new true, false)
      else
        match parent.find_graph m.name with
        | some prefab =>
          if ¬ m.inner.children.isEmpty then
            .err (.nonExternModelError .overrideChild m.name)
          else if ¬ m.inner.graph.isEmpty then
            .err (.nonExternModelError .overrideGraph m.name)
          else .ok (prefab, true)
        | none =>
          if m.inner.graph.isEmpty then
            .err (.nonExternModelError .noGraph m.name)
          else
            let prefab := parent.new_child
            (compileChildren fuel m.inner.children prefab).bind fun children =>
              .ok (children.foldl (fun g p => g.add_graph p.1 p.2) prefab, false)
    prefabRes.bind fun pr =>
    let child := pr.1
    let is_override := pr.2
    let varsRes : CRes Graph :=
      if is_override then
        m.inner.vars.foldlM
          (fun (child : Graph) v =>
            let (name, vr) := variableCompile v
            match vr.value with
            | some value =>
              match child.update_variable (some vr.description) (some name) value vr.ty with
              | .ok child => .ok child
              | .err e => .err (.graphError e m.name)
              | .fatal => .fatal
              | .nofuel => .nofuel
            | none => .err (.graphError (.noVariableValue name) m.name))
          child
      else
        m.inner.vars.foldlM
          (fun (child : Graph) v =>
            let (name, vr) := variableCompile v
            match child.add_variable (some name) vr with
            | .ok child => .ok child
            | .err e => .err (.graphError e m.name)
            | .fatal => .fatal
            | .nofuel => .nofuel)
          child
    varsRes.bind fun child =>
    (compileGraphLines fuel m.inner.graph child).bind fun child =>
    (if ¬ m.is_ext ∧ ¬ is_override then child.finalize else .ok child).bind fun child =>
    .ok (m.name, child)

/-- src/compile.rs: the recursive compilation of the child models of a fresh
model before they are added to its table. -/
def compileChildren : Nat → List AstModel → Graph → CRes (List (String × Graph))
  | 0, _, _ => .nofuel
  | _ + 1, [], _ => .ok []
  | fuel + 1, c :: rest, prefab =>
    (modelCompile fuel c prefab).bind fun r =>
    (compileChildren fuel rest prefab).bind fun others =>
    .ok (r :: others)

/-- src/compile.rs: the `for node in self.inner.graph` loop of
`ast::Model::compile`. -/
def compileGraphLines : Nat → List AstGraphLine → Graph → CRes Graph
  | 0, _, _ => .nofuel
  | _ + 1, [], g => .ok g
  | fuel + 1, line :: rest, g =>
    (graphLineCompile fuel line g).bind fun g => compileGraphLines fuel rest g

/-- src/compile.rs `impl Compile for ast::Graph` (one graph line): compile
the inline model, attach every pass/repeat, then adjust the declared
shapes. -/
def graphLineCompile : Nat → AstGraphLine → Graph → CRes Graph
  | 0, _, _ => .nofuel
  | fuel + 1, line, g =>
    let inlineRes : CRes (Option Graph) :=
      match line.inline with
      | some m => (modelCompile fuel m g).bind fun r => .ok (some r.2)
      | none => .ok none
    inlineRes.bind fun inl =>
    (attachPasses g inl line.id line.passes).bind fun g =>
    match line.shapes with
    | some shapes => g.adjust_shapes shapes
    | none => .ok g
end

/-! ## Statement helpers and concrete inputs used by the claim theorems -/

/-- Statement helper: the dim is a bare placeholder key. -/
def Dim.isBarePlaceholder : Dim → Bool
  | .key (.placeholder _ _) => true
  | _ => false

/-- Statement helper: a bundle is fully fixed when it is `Fixed` and every
per-arg shape inside it is `Fixed`. -/
def Shapes.fullyFixed : Shapes → Bool
  | .dynamic => false
  | .fixed shapes =>
    shapes.all (fun p =>
      match p.2 with
      | .dynamic => false
      | .fixed _ => true)

/-- Reference definition following the words of claim C1 (not the source):
the claimed successor relation also pins `repeat = 0` on a pass increment
and `pass = 0`, `repeat = 0` on a node increment. -/
def GraphId.validateClaimed (self last : GraphId) : Bool :=
  decide ((self.node = last.node ∧ self.pass = last.pass ∧ self.rep = last.rep + 1)
    ∨ (self.node = last.node ∧ self.pass = last.pass + 1 ∧ self.rep = 0)
    ∨ (self.node = last.node + 1 ∧ self.pass = 0 ∧ self.rep = 0))

/-- A graph holding only the input node `(0,0,0)`, as it stands right after
`#0 Input` was attached (state `Required(Weak)`, dynamic shapes). -/
def exInputGraph : Graph :=
  .mk [] [] [] [] [(⟨0, 0, 0⟩, .mk "Input" none [] .dynamic)] (.required .weak) false

/-- A graph whose key bindings already bind the input placeholder `x` to the
constant `5`, used to exercise the binding check of `update_dim`. -/
def exBoundGraph : Graph :=
  .mk [] [] [(.placeholder "x" true, .const 5)] [] [] ShapeState.default false

/-- The registry state of a two-prefab cycle: model `A` uses `B` and model
`B` uses `A` (both `Local`). -/
def exCycleState : RootState :=
  ⟨[], [],
   [("A", ⟨[⟨"B", .local⟩], .mk "A" false (.mk [] [] [.mk 0 none [⟨"Input", 1, []⟩] (some [(0, [.fixed 1])])])⟩),
    ("B", ⟨[⟨"A", .local⟩], .mk "B" false (.mk [] [] [.mk 0 none [⟨"Input", 1, []⟩] (some [(0, [.fixed 1])])])⟩)]⟩

/-- The registry state of a cyclic use-graph that is never reached: `A` uses
`B`; `B` first uses the missing model `X` and then `A`.  The transitive
use-graph of `A` contains the cycle `A → B → A`. -/
def exCycleMissingState : RootState :=
  ⟨[], [],
   [("A", ⟨[⟨"B", .local⟩], .mk "A" false (.mk [] [] [.mk 0 none [⟨"Input", 1, []⟩] (some [(0, [.fixed 1])])])⟩),
    ("B", ⟨[⟨"X", .local⟩, ⟨"A", .local⟩], .mk "B" false (.mk [] [] [.mk 0 none [⟨"Input", 1, []⟩] (some [(0, [.fixed 1])])])⟩)]⟩

/-- A minimal compilable model: `[M] #0 Input = 42`. -/
def exModelM : AstModel :=
  .mk "M" false (.mk [] [] [.mk 0 none [⟨"Input", 1, []⟩] (some [(0, [.fixed 42])])])

/-- The graph that `exModelM` compiles to. -/
def exGraphM : Graph :=
  .mk [] [] [] []
    [(⟨0, 0, 0⟩, .mk "Input" none [] (.fixed [(0, .fixed [.expr (.const 42)])]))]
    (.fixed .full) false

/-- A finished graph in state `Fixed(Full)` with one child graph left in the
table and a placeholder dim in its node shapes. -/
def exFullGraph : Graph :=
  .mk [] [] [(.placeholder "N" true, .const 7)] [("c", Graph.new false)]
    [(⟨0, 0, 0⟩, .mk "Input" none [] (.fixed [(0, .fixed [.key (.placeholder "N" true)])]))]
    (.fixed .full) false

/-- A graph stuck in state `Fixed(Weak)` with one node, for the failing
branch of `finalize`. -/
def exWeakGraph : Graph :=
  .mk [] [] [] []
    [(⟨0, 0, 0⟩, .mk "Input" none [] .dynamic)]
    (.fixed .weak) false

/-- A graph holding one variable `n` of type `UInt`, for the
`update_variable` claim. -/
def exVarGraph : Graph :=
  .mk [("n", ⟨"n", .uint, some (.uint 3)⟩)] [("alias n", "n")] [] [] []
    ShapeState.default false

/-! ## Helper lemmas -/

theorem PRes.bind_ok_left {ε α β : Type} (a : α) (f : α → PRes ε β) :
    PRes.bind (.ok a) f = f a := rfl

theorem PRes.bind_err_left {ε α β : Type} (e : ε) (f : α → PRes ε β) :
    PRes.bind (.err e) f = .err e := rfl

theorem PRes.bind_eq_ok {ε α β : Type} {x : PRes ε α} {f : α → PRes ε β} {b : β}
    (h : x.bind f = .ok b) : ∃ a, x = .ok a ∧ f a = .ok b := by
  cases x with
  | ok a => exact ⟨a, rfl, h⟩
  | err e => simp [PRes.bind] at h
  | fatal => simp [PRes.bind] at h
  | nofuel => simp [PRes.bind] at h

theorem PRes.monadBind_eq {ε α β : Type} (x : PRes ε α) (f : α → PRes ε β) :
    x >>= f = x.bind f := rfl

theorem PRes.pure_eq {ε α : Type} (a : α) : (pure a : PRes ε α) = .ok a := rfl

theorem lastEntry_ne_nil {α : Type} {l : List (GraphId × α)} {p : GraphId × α}
    (h : lastEntry l = some p) : l ≠ [] := by
  intro hnil
  subst hnil
  simp [lastEntry] at h

theorem collectO_isSome {α β : Type} (f : α → Option β) (l : List α) :
    (collectO f l).isSome = l.all (fun a => (f a).isSome) := by
  induction l with
  | nil => rfl
  | cons a t ih =>
    cases hfa : f a with
    | none => simp [collectO, hfa]
    | some b =>
      cases hct : collectO f t with
      | none => simp [collectO, hfa, hct, ← ih]
      | some bs => simp [collectO, hfa, hct, ← ih]

theorem collectO_mem {α β : Type} (f : α → Option β) :
    ∀ {l : List α} {out : List β}, collectO f l = some out →
      ∀ b ∈ out, ∃ a ∈ l, f a = some b := by
  intro l
  induction l with
  | nil =>
    intro out h b hb
    simp [collectO] at h
    subst h
    simp at hb
  | cons a t ih =>
    intro out h b hb
    cases hfa : f a with
    | none => simp [collectO, hfa] at h
    | some c =>
      cases hct : collectO f t with
      | none => simp [collectO, hfa, hct] at h
      | some cs =>
        simp [collectO, hfa, hct] at h
        subst h
        rcases List.mem_cons.mp hb with hb | hb
        · exact ⟨a, List.mem_cons_self a t, hb ▸ hfa⟩
        · rcases ih hct b hb with ⟨x, hx, hfx⟩
          exact ⟨x, List.mem_cons_of_mem a hx, hfx⟩

theorem eval_dim_for_output_no_placeholder (g : Graph) (d : Dim) :
    (g.eval_dim_for_output d).isBarePlaceholder = false := by
  cases d with
  | key k => cases k <;> simp [Graph.eval_dim_for_output, Dim.isBarePlaceholder]
  | expr e => simp [Graph.eval_dim_for_output, Dim.isBarePlaceholder]

theorem alookup_ainsert_self {κ α : Type} [DecidableEq κ] (l : List (κ × α))
    (k : κ) (v : α) : alookup (ainsert l k v) k = some v := by
  induction l with
  | nil => simp [ainsert, alookup]
  | cons p t ih =>
    by_cases h : p.1 = k
    · simp [ainsert, h, alookup]
    · simp [ainsert, h, alookup, List.find?] at ih ⊢
      simpa [h] using ih

theorem Graph.vars_withVars (g : Graph) (v : List (String × Variable)) :
    (g.withVars v).vars = v := by cases g; rfl

theorem Graph.vars_withAliases (g : Graph) (a : List (String × String)) :
    (g.withAliases a).vars = g.vars := by cases g; rfl

theorem Graph.vars_withKeys (g : Graph) (k : KeyMap) :
    (g.withKeys k).vars = g.vars := by cases g; rfl

theorem Graph.keys_withVars (g : Graph) (v : List (String × Variable)) :
    (g.withVars v).keys = g.keys := by cases g; rfl

theorem Graph.keys_withAliases (g : Graph) (a : List (String × String)) :
    (g.withAliases a).keys = g.keys := by cases g; rfl

theorem Graph.keys_withKeys (g : Graph) (k : KeyMap) :
    (g.withKeys k).keys = k := by cases g; rfl

theorem Graph.graphs_withGraphs (g : Graph) (gs : List (String × Graph)) :
    (g.withGraphs gs).graphs = gs := by cases g; rfl

theorem Graph.state_withGraphs (g : Graph) (gs : List (String × Graph)) :
    (g.withGraphs gs).shape_state = g.shape_state := by cases g; rfl

theorem Graph.nodes_withGraphs (g : Graph) (gs : List (String × Graph)) :
    (g.withGraphs gs).nodes = g.nodes := by cases g; rfl

theorem Graph.last_node_id_withGraphs (g : Graph) (gs : List (String × Graph)) :
    (g.withGraphs gs).get_last_node_id = g.get_last_node_id := by
  simp [Graph.get_last_node_id, Graph.nodes_withGraphs]

theorem Graph.last_node_name_withGraphs (g : Graph) (gs : List (String × Graph)) :
    (g.withGraphs gs).get_last_node_name = g.get_last_node_name := by
  simp [Graph.get_last_node_name, Graph.nodes_withGraphs]

theorem finalize_ok_inversion {g g' : Graph} (h : g.finalize = .ok g') :
    g.shape_state = .fixed .full ∧ g'.graphs = [] ∧ g' = g.withGraphs [] := by
  simp only [Graph.finalize] at h
  cases hs : g.shape_state with
  | fixed fs =>
    cases fs with
    | full =>
      rw [Graph.state_withGraphs, hs] at h
      cases h
      exact ⟨rfl, Graph.graphs_withGraphs g [], rfl⟩
    | weak =>
      rw [Graph.state_withGraphs, hs] at h
      cases hl : (g.withGraphs []).get_last_node_id <;>
        cases hn : (g.withGraphs []).get_last_node_name <;>
        simp [hl, hn] at h
  | required fs =>
    rw [Graph.state_withGraphs, hs] at h
    cases fs <;> cases hl : (g.withGraphs []).get_last_node_id <;>
      cases hn : (g.withGraphs []).get_last_node_name <;> simp [hl, hn] at h
  | transform =>
    rw [Graph.state_withGraphs, hs] at h
    cases hl : (g.withGraphs []).get_last_node_id <;>
      cases hn : (g.withGraphs []).get_last_node_name <;> simp [hl, hn] at h

/-! ## Claim theorems -/

/-- C10: `Graph::get_shapes` returns (instead of panicking through
`unreachable!`) exactly on the graphs whose every node carries a `Fixed`
shape bundle all of whose per-arg shapes are `Fixed`; any `Dynamic` bundle
or per-arg shape makes it panic. -/
theorem c10_get_shapes_total_iff_fully_fixed :
    ∀ g : Graph,
      (g.get_shapes).isSome = g.nodes.all (fun p => p.2.shapes.fullyFixed) := by
  intro g
  rw [Graph.get_shapes, collectO_isSome]
  congr 1
  funext p
  cases hs : p.2.shapes with
  | dynamic => simp [hs, Shapes.fullyFixed]
  | fixed shapes =>
    have : ∀ o : Option (List (List Dim)),
        (o.map (fun shapes => (p.1, shapes))).isSome = o.isSome := by
      intro o
      cases o <;> rfl
    simp only [hs, this, collectO_isSome, Shapes.fullyFixed]
    congr 1
    funext q
    cases q.2 <;> simp

/-- C3 (code bug): on two `Fixed` bundles with equal key sets `{0, 1}` whose
per-arg pairs BOTH fail to validate (the callee bundle's per-arg shapes are
`Dynamic`), `Shapes::validate_args_rank` returns `Ok(true)` — the source
folds the per-arg results with `Ok(a? == b?)`, boolean equality seeded with
`true`, instead of a conjunction, so an even number of non-validating pairs
yields `Ok(true)`; with a single such pair it yields `Ok(false)` as the
claim expects. -/
theorem c3_validate_args_rank_even_dynamic_pairs :
    Shapes.validate_args_rank (.fixed [(0, .dynamic), (1, .dynamic)])
        (.fixed [(0, .fixed []), (1, .fixed [])]) ⟨1, 0, 0⟩ = .ok true
    ∧ Shapes.validate_args_rank (.fixed [(0, .dynamic)])
        (.fixed [(0, .fixed [])]) ⟨1, 0, 0⟩ = .ok false :=
  ⟨rfl, rfl⟩

/-- C2 (code bug): `GraphRoot::find_graph("A", Local)` on an empty registry
(no cache entry, not compiling, no prefab) takes the `load_graph` path,
inserts `"A"` into `compiling`, and then the loader error is propagated with
`?` BEFORE `compiling.remove` runs: the call returns `ModelNotFound` and
`"A"` is still in the `compiling` set afterwards, so the name is not
released on the error exit path. -/
theorem c2_compiling_leaks_on_error :
    (findGraph 3 ⟨[], [], []⟩ "A" .local).2
        = .err (.modelError .modelNotFound "A" .local)
    ∧ (findGraph 3 ⟨[], [], []⟩ "A" .local).1.compiling = ["A"] :=
  ⟨rfl, rfl⟩

/-- C9: for a name that is neither cached nor in `compiling`,
`GraphRoot::find_graph` with a `Site` or `User` origin inserts the name into
`compiling` and then panics in the unconditional `unimplemented!()` of
`load_graph_site` / `load_graph_user`; it never returns a value or a
`CompileError`. -/
theorem c9_site_user_loaders_panic (fuel : Nat) (rs : RootState)
    (name s u : String) (hg : alookup rs.graphs name = none)
    (hc : rs.compiling.contains name = false) :
    ((findGraph (fuel + 2) rs name (.site s)).2 = .fatal
      ∧ (findGraph (fuel + 2) rs name (.site s)).1.compiling = name :: rs.compiling)
    ∧ ((findGraph (fuel + 2) rs name (.user u)).2 = .fatal
      ∧ (findGraph (fuel + 2) rs name (.user u)).1.compiling = name :: rs.compiling) := by
  have hc' : ¬ (name ∈ rs.compiling) := by simpa using hc
  simp [findGraph, loadGraph, hg, hc']

/-- Witness for C9 at the empty registry. -/
theorem c9_witness :
    (findGraph 5 ⟨[], [], []⟩ "A" (.site "s")).2 = .fatal
    ∧ (findGraph 5 ⟨[], [], []⟩ "A" (.site "s")).1.compiling = ["A"]
    ∧ (findGraph 5 ⟨[], [], []⟩ "A" (.user "u")).2 = .fatal :=
  ⟨(c9_site_user_loaders_panic 3 ⟨[], [], []⟩ "A" "s" "u" rfl rfl).1.1,
   (c9_site_user_loaders_panic 3 ⟨[], [], []⟩ "A" "s" "u" rfl rfl).1.2,
   (c9_site_user_loaders_panic 3 ⟨[], [], []⟩ "A" "s" "u" rfl rfl).2.1⟩

/-- C1 (counterexample): with only the input node `(0,0,0)` inserted,
attaching id `(1,2,3)` — which the claimed successor relation rejects, since
its `pass` and `repeat` are not zero — under the intrinsic name `"fixed"`
succeeds instead of failing with `UnvalidNodeId`: `GraphId::validate` does
not constrain `pass` or `repeat` on a node increment. -/
theorem c1_counterexample :
    (exInputGraph.attach ⟨1, 2, 3⟩ "fixed" none []).isOk = true
    ∧ GraphId.validateClaimed ⟨1, 2, 3⟩ ⟨0, 0, 0⟩ = false
    ∧ GraphId.validate ⟨1, 2, 3⟩ ⟨0, 0, 0⟩ = true :=
  ⟨rfl, by decide, by decide⟩

/-- C1 (amended): for every non-empty graph, `Graph::attach` accepts a new
id only when `GraphId::validate` accepts it against the last inserted id,
and every other id fails with `UnvalidNodeId`; the successor relation is
exactly: same node and same pass → repeat = last.repeat + 1; or same node →
pass = last.pass + 1 with repeat unconstrained; or node = last.node + 1
with pass and repeat unconstrained. -/
theorem c1_attach_gate (g : Graph) (id : GraphId) (name : String)
    (graphOpt : Option Graph) (args : List GraphPassArg)
    (last : GraphId) (nd : Node) (h : lastEntry g.nodes = some (last, nd)) :
    (id.validate last = false →
      g.attach id name graphOpt args
        = .err (.graphError (.unvalidNodeId last id) name))
    ∧ ((g.attach id name graphOpt args).isOk = true → id.validate last = true)
    ∧ (id.validate last = true ↔
        ((id.node = last.node ∧ id.pass = last.pass ∧ id.rep = last.rep + 1)
          ∨ (id.node = last.node ∧ id.pass = last.pass + 1)
          ∨ (id.node = last.node + 1))) := by
  have hne : g.nodes ≠ [] := lastEntry_ne_nil h
  have hemp : g.nodes.isEmpty = false := by
    cases hnn : g.nodes with
    | nil => exact absurd hnn hne
    | cons a t => rfl
  have herr : id.validate last = false →
      g.attach id name graphOpt args
        = .err (.graphError (.unvalidNodeId last id) name) := by
    intro hv
    simp [Graph.attach, hemp, h, hv, PRes.bind]
  refine ⟨herr, ?_, ?_⟩
  · intro hok
    cases hb : id.validate last with
    | false => rw [herr hb] at hok; simp [PRes.isOk] at hok
    | true => rfl
  · constructor
    · intro hv
      by_cases h1 : id.node = last.node <;> by_cases h2 : id.pass = last.pass <;>
        simp [GraphId.validate, h1, h2] at hv <;> simp [h1, h2, hv]
    · intro hv
      by_cases h1 : id.node = last.node <;> by_cases h2 : id.pass = last.pass <;>
        simp [GraphId.validate, h1, h2] <;> omega

/-- Witness for C1 at the input-only graph: `(0,5,5)` is no
validate-successor of `(0,0,0)` and attach fails with `UnvalidNodeId`. -/
theorem c1_witness :
    exInputGraph.attach ⟨0, 5, 5⟩ "fixed" none []
      = .err (.graphError (.unvalidNodeId ⟨0, 0, 0⟩ ⟨0, 5, 5⟩) "fixed") :=
  (c1_attach_gate exInputGraph ⟨0, 5, 5⟩ "fixed" none [] ⟨0, 0, 0⟩
    (.mk "Input" none [] .dynamic) rfl).1 (by decide)

/-- C6 (counterexample): when the key bindings already bind the placeholder
`x` to the constant `5` — a binding that canonically differs both from `x`'s
own symbol and from the ground — `update_dim` with equal names
(`ph = g = "x"`) fails with `DifferentDimension` instead of returning Ok
propagating the ground: the binding check precedes the claimed case
analysis. -/
theorem c6_counterexample :
    exBoundGraph.update_dim ⟨1, 0, 0⟩ 0 (.key (.placeholder "x" true))
        (.key (.placeholder "x" true)) 0
      = .err (.differentDimension ⟨1, 0, 0⟩ 0 0 (.expr (.const 5))
          (.key (.placeholder "x" true))) := rfl

/-- C6 (amended): `Graph::update_dim` on a placeholder dim first checks any
existing binding of the placeholder against the placeholder's own symbol and
the ground's expression, failing `DifferentDimension` when it contradicts
both; provided that check passes, the claimed analysis holds exactly: same
placeholder name → Ok propagating the ground; different names with both
`is_input` flags true → the placeholder is bound to the symbol of the
ground's name and that bound expression is returned; any other placeholder
ground → `CannotEstimateShape`; a non-placeholder ground → the placeholder
is bound to the ground's expression and `Expr(ground)` is returned. -/
theorem c6_update_dim_cases (g : Graph) (id : GraphId) (arg : Nat)
    (ph : String) (phi : Bool) (ground : Dim) (axis : Nat)
    (hnc : ∀ e, alookup g.keys (.placeholder ph phi) = some e →
      e.eqExpr (DimKey.placeholder ph phi).to_expr = true
      ∨ e.eqExpr ground.to_expr = true) :
    (∀ gr gri, ground = .key (.placeholder gr gri) → ph = gr →
      g.update_dim id arg (.key (.placeholder ph phi)) ground axis
        = .ok (.key (.placeholder gr gri), g))
    ∧ (∀ gr gri, ground = .key (.placeholder gr gri) → ph ≠ gr →
        phi = true → gri = true →
      g.update_dim id arg (.key (.placeholder ph phi)) ground axis
        = .ok (.expr (DimKey.placeholder gr phi).to_expr,
            g.withKeys (ainsert g.keys (.placeholder ph phi)
              (DimKey.placeholder gr phi).to_expr)))
    ∧ (∀ gr gri, ground = .key (.placeholder gr gri) → ph ≠ gr →
        ¬ (phi = true ∧ gri = true) →
      g.update_dim id arg (.key (.placeholder ph phi)) ground axis
        = .err (.cannotEstimateShape id arg axis))
    ∧ ((∀ gr gri, ground ≠ .key (.placeholder gr gri)) →
      g.update_dim id arg (.key (.placeholder ph phi)) ground axis
        = .ok (.expr ground.to_expr,
            g.withKeys (ainsert g.keys (.placeholder ph phi) ground.to_expr))) := by
  have hch :
      (match alookup g.keys (.placeholder ph phi) with
        | some bound =>
          if ¬ bound.eqExpr (DimKey.placeholder ph phi).to_expr
              ∧ ¬ bound.eqExpr ground.to_expr then
            (.err (.differentDimension id arg axis (.expr bound) ground) : GRes Unit)
          else .ok ()
        | none => .ok ()) = (.ok () : GRes Unit) := by
    cases hk : alookup g.keys (.placeholder ph phi) with
    | none => rfl
    | some e =>
      rcases hnc e hk with he | he <;> simp [he]
  refine ⟨?_, ?_, ?_, ?_⟩
  · intro gr gri hg heq
    subst hg
    simp only [Graph.update_dim, hch, PRes.bind_ok_left]
    simp [heq]
  · intro gr gri hg hne hphi hgri
    subst hg; subst hphi; subst hgri
    simp only [Graph.update_dim, hch, PRes.bind_ok_left]
    simp [hne]
  · intro gr gri hg hne hflags
    subst hg
    simp only [Graph.update_dim, hch, PRes.bind_ok_left]
    simp [hne, hflags]
  · intro hng
    cases ground with
    | key k =>
      cases k with
      | var v =>
        simp only [Graph.update_dim, hch, PRes.bind_ok_left]
      | placeholder p b => exact absurd rfl (hng p b)
    | expr e =>
      simp only [Graph.update_dim, hch, PRes.bind_ok_left]

/-- Witness for C6: with no binding present, unifying the placeholder `a`
against the concrete ground `Expr(4)` binds `a` and returns the ground's
expression. -/
theorem c6_witness :
    (Graph.new false).update_dim ⟨1, 0, 0⟩ 0 (.key (.placeholder "a" true))
        (.expr (.const 4)) 0
      = .ok (.expr (.const 4),
          (Graph.new false).withKeys [(.placeholder "a" true, .const 4)]) :=
  (c6_update_dim_cases (Graph.new false) ⟨1, 0, 0⟩ 0 "a" true
      (.expr (.const 4)) 0
      (fun e he => by simp [Graph.new, Graph.keys, alookup] at he)).2.2.2
    (fun gr gri h => by simp at h)

/-- C7: `Graph::update_variable` resolves by name, else by alias (through
the alias map, else treating the alias as the description itself); when it
resolves to a stored variable it succeeds exactly when the stored type
equals the incoming type or the stored type is `Required` (failing
`DifferentVariableType` otherwise); on success the value is updated, the
stored type becomes the incoming type (so `Required` is upgraded), and if
the resolved value is a `UInt` then `DimKey::Variable(name) → Expr(uint)` is
inserted into the graph's key bindings, which are otherwise unchanged. -/
theorem c7_update_variable (g : Graph) (v : Value) (ty : ValueType) :
    (∀ a n, alookup g.variable_aliases a = some n →
      g.update_variable none (some a) v ty = g.update_variable_named n none v ty)
    ∧ (∀ a, alookup g.variable_aliases a = none →
      g.update_variable none (some a) v ty = g.update_variable_named a none v ty)
    ∧ (∀ n al vr, alookup g.vars n = some vr → (vr.ty = ty ∨ vr.ty = .required) →
      ∃ g', g.update_variable (some n) al v ty = .ok g'
        ∧ alookup g'.vars n = some { vr with ty := ty, value := some v }
        ∧ (∀ u, v = .uint u → alookup g'.keys (.var n) = some (.const u))
        ∧ ((∀ u, v ≠ .uint u) → g'.keys = g.keys))
    ∧ (∀ n al vr, alookup g.vars n = some vr → vr.ty ≠ ty → vr.ty ≠ .required →
      g.update_variable (some n) al v ty
        = .err (.differentVariableType vr.description vr.ty (some v))) := by
  refine ⟨?_, ?_, ?_, ?_⟩
  · intro a n ha
    simp [Graph.update_variable, ha]
  · intro a ha
    simp [Graph.update_variable, ha]
  · intro n al vr hvr hty
    have hupd : vr.update v ty = .ok { vr with value := some v, ty := ty } := by
      simp [Variable.update, hty]
    simp only [Graph.update_variable, Graph.update_variable_named, hvr,
      PRes.monadBind_eq, hupd, PRes.bind_ok_left]
    refine ⟨_, rfl, ?_, ?_, ?_⟩
    · cases al <;> cases hv : v <;>
        simp [Variable.unwrap_uint, Graph.vars_withVars, Graph.vars_withAliases,
          Graph.vars_withKeys, alookup_ainsert_self]
    · intro u hu
      subst hu
      cases al <;>
        simp [Variable.unwrap_uint, Graph.keys_withVars, Graph.keys_withAliases,
          Graph.keys_withKeys, alookup_ainsert_self]
    · intro hnu
      cases hv : v with
      | uint u => exact absurd hv (hnu u)
      | bool b =>
        cases al <;>
          simp [Variable.unwrap_uint, Graph.keys_withVars, Graph.keys_withAliases]
      | int i =>
        cases al <;>
          simp [Variable.unwrap_uint, Graph.keys_withVars, Graph.keys_withAliases]
      | real r =>
        cases al <;>
          simp [Variable.unwrap_uint, Graph.keys_withVars, Graph.keys_withAliases]
      | model m =>
        cases al <;>
          simp [Variable.unwrap_uint, Graph.keys_withVars, Graph.keys_withAliases]
  · intro n al vr hvr hne hnr
    have hupd : vr.update v ty
        = .err (.differentVariableType vr.description vr.ty (some v)) := by
      simp [Variable.update, hne, hnr]
    simp [Graph.update_variable, Graph.update_variable_named, hvr,
      PRes.monadBind_eq, hupd, PRes.bind_err_left]

/-- Witness for C7 at a graph holding the `UInt` variable `n`, addressed
through its alias: the stored value becomes `UInt 9` and the binding
`Variable("n") → Expr(9)` is inserted. -/
theorem c7_witness :
    exVarGraph.update_variable none (some "alias n") (.uint 9) .uint
        = exVarGraph.update_variable_named "n" none (.uint 9) .uint
    ∧ ∃ g', exVarGraph.update_variable (some "n") none (.uint 9) .uint = .ok g'
        ∧ alookup g'.vars "n" = some ⟨"n", .uint, some (.uint 9)⟩
        ∧ alookup g'.keys (.var "n") = some (.const 9) := by
  refine ⟨(c7_update_variable exVarGraph (.uint 9) .uint).1 "alias n" "n" rfl, ?_⟩
  rcases (c7_update_variable exVarGraph (.uint 9) .uint).2.2.1 "n" none
      ⟨"n", .uint, some (.uint 3)⟩ rfl (Or.inl rfl) with ⟨g', h1, h2, h3, _⟩
  exact ⟨g', h1, h2, h3 9 rfl⟩

/-- C8: converting the declared dim `lhs ÷ rhs` first converts both sides,
then evaluates the converted right-hand side under the current key bindings:
exactly when that evaluation reduces to an expression canonically equal to
the constant `0` the conversion fails with `DivideByZero` at the last node's
id, and otherwise it returns the quotient expression. -/
theorem c8_convert_dim_div (g g1 g2 : Graph) (l r : AstDim) (arg : Nat)
    (f f1 f2 : Bool) (ld rd : Dim)
    (h1 : g.convert_dim l arg f = .ok (ld, g1, f1))
    (h2 : g1.convert_dim r arg f1 = .ok (rd, g2, f2)) :
    (∀ e lid, g2.eval_dim rd = .expr e → e.eqExpr (.const 0) = true →
      g2.get_last_node_id = some lid →
      g.convert_dim (.expr l r .div) arg f = .err (.divideByZero lid arg))
    ∧ ((∀ e, g2.eval_dim rd = .expr e → e.eqExpr (.const 0) = false) →
      g.convert_dim (.expr l r .div) arg f = .ok (ld.divDim rd, g2, f2)) := by
  constructor
  · intro e lid he hz hlid
    simp [Graph.convert_dim, h1, h2, PRes.monadBind_eq, PRes.bind_ok_left,
      he, hz, hlid]
  · intro hne
    cases he : g2.eval_dim rd with
    | expr e =>
      simp [Graph.convert_dim, h1, h2, PRes.monadBind_eq, PRes.bind_ok_left,
        he, hne e he]
    | key k =>
      simp [Graph.convert_dim, h1, h2, PRes.monadBind_eq, PRes.bind_ok_left, he]

/-- Witness for C8: the declared dim `10 / 0` of the source line
`#1 Reshape = 10 / 0` fails with `DivideByZero` in the graph holding the
input node. -/
theorem c8_witness :
    exInputGraph.convert_dim (.expr (.fixed 10) (.fixed 0) .div) 0 false
      = .err (.divideByZero ⟨0, 0, 0⟩ 0) :=
  (c8_convert_dim_div exInputGraph exInputGraph exInputGraph (.fixed 10)
      (.fixed 0) 0 false false false (.expr (.const 10)) (.expr (.const 0))
      rfl rfl).1 (.const 0) ⟨0, 0, 0⟩ rfl (by decide) rfl

/-- C4 (counterexample): in `exCycleMissingState` the transitive use-graph
of `A` contains the cycle `A → B → A` (prefab `A` uses `B`, prefab `B` uses
`X` and then `A`), yet `find_graph("A", Local)` fails with `ModelNotFound`
for the missing model `X`, which `B` uses before `A` — not with
`RecursiveUsage`. -/
theorem c4_counterexample :
    (findGraph 30 exCycleMissingState "A" .local).2
      = .err (.modelError .modelNotFound "X" .local) := rfl

/-- C4 (amended): whenever `find_graph` is called for a name already present
in `compiling` and not cached, the result is the `RecursiveUsage` error with
the registry unchanged — this guard makes a use-cycle that is actually
traversed fail with `RecursiveUsage`, as the two-prefab cycle `A ⇄ B` does —
though a cycle elsewhere in the transitive use-graph can be preempted by an
earlier use-resolution error; and a cached name always returns a clone of
the cached graph without recompiling (registry unchanged). -/
theorem c4_find_graph_guard :
    (∀ fuel rs name origin g, alookup rs.graphs name = some g →
      findGraph (fuel + 1) rs name origin = (rs, .ok g))
    ∧ (∀ fuel rs name origin, alookup rs.graphs name = none →
        rs.compiling.contains name = true →
      findGraph (fuel + 1) rs name origin
        = (rs, .err (.modelError .recursiveUsage name origin)))
    ∧ (findGraph 30 exCycleState "A" .local).2
        = .err (.modelError .recursiveUsage "A" .local) := by
  refine ⟨?_, ?_, rfl⟩
  · intro fuel rs name origin g hg
    simp [findGraph, hg]
  · intro fuel rs name origin hg hc
    have hc' : name ∈ rs.compiling := by simpa using hc
    simp [findGraph, hg, hc']

/-- Witness for C4: a cached name returns the cached graph with the registry
unchanged, and a name in `compiling` fails with `RecursiveUsage`. -/
theorem c4_witness :
    findGraph 1 ⟨[("M", Graph.new true)], [], []⟩ "M" .local
      = (⟨[("M", Graph.new true)], [], []⟩, .ok (Graph.new true))
    ∧ findGraph 1 ⟨[], ["M"], []⟩ "M" .local
      = (⟨[], ["M"], []⟩, .err (.modelError .recursiveUsage "M" .local)) :=
  ⟨c4_find_graph_guard.1 0 ⟨[("M", Graph.new true)], [], []⟩ "M" .local
      (Graph.new true) rfl,
   c4_find_graph_guard.2.1 0 ⟨[], ["M"], []⟩ "M" .local rfl rfl⟩

/-- C5: `Graph::finalize` clears the child-graph table and succeeds exactly
when the shape state is `Fixed(Full)`, failing `FullShapeRequired` (at the
last node) otherwise; a non-extern, non-override model that compiles
successfully went through `finalize` as its last step, so its graph ends
with state `Fixed(Full)` and an empty child table; and `get_shapes` output
never contains a bare `Key(Placeholder)` dim — placeholders are substituted
through the key bindings. -/
theorem c5_finalize :
    (∀ g g' : Graph, g.finalize = .ok g' →
      g.shape_state = .fixed .full ∧ g'.graphs = [])
    ∧ (∀ g : Graph, g.shape_state = .fixed .full →
      g.finalize = .ok (g.withGraphs []))
    ∧ (∀ (g : Graph) (lid : GraphId) (lname : String),
        g.shape_state ≠ .fixed .full → g.get_last_node_id = some lid →
        g.get_last_node_name = some lname →
      g.finalize = .err (.graphError (.fullShapeRequired lid) lname))
    ∧ (∀ (fuel : Nat) (m : AstModel) (parent : Graph) (name : String) (g : Graph),
        modelCompile (fuel + 1) m parent = .ok (name, g) →
        m.is_ext = false → parent.find_graph m.name = none →
      g.shape_state = .fixed .full ∧ g.graphs = [])
    ∧ (∀ (g : Graph) (out : List (GraphId × List (List Dim))),
        g.get_shapes = some out →
        ∀ pr ∈ out, ∀ row ∈ pr.2, ∀ d ∈ row, d.isBarePlaceholder = false) := by
  refine ⟨?_, ?_, ?_, ?_, ?_⟩
  · intro g g' h
    obtain ⟨h1, h2, _⟩ := finalize_ok_inversion h
    exact ⟨h1, h2⟩
  · intro g hs
    simp [Graph.finalize, Graph.state_withGraphs, hs]
  · intro g lid lname hs hlid hlname
    simp only [Graph.finalize, Graph.state_withGraphs]
    rw [Graph.last_node_id_withGraphs, Graph.last_node_name_withGraphs] at *
    cases hst : g.shape_state with
    | fixed fs =>
      cases fs with
      | full => exact absurd hst hs
      | weak => simp [hlid, hlname]
    | required fs => cases fs <;> simp [hlid, hlname]
    | transform => simp [hlid, hlname]
  · intro fuel m parent name g hok hext hov
    simp only [modelCompile, hext, Bool.false_eq_true, if_false, hov] at hok
    by_cases hemp : m.inner.graph.isEmpty
    · simp [hemp, PRes.bind_err_left] at hok
    · simp only [hemp, if_false, if_true] at hok
      obtain ⟨pr, hpr, hrest⟩ := PRes.bind_eq_ok hok
      obtain ⟨children, _, hpr2⟩ := PRes.bind_eq_ok hpr
      cases hpr2
      obtain ⟨child1, _, hrest2⟩ := PRes.bind_eq_ok hrest
      obtain ⟨child2, _, hrest3⟩ := PRes.bind_eq_ok hrest2
      obtain ⟨child3, hfin, hrest4⟩ := PRes.bind_eq_ok hrest3
      cases hrest4
      simp only [hext] at hfin
      simp at hfin
      obtain ⟨h1, h2, h3⟩ := finalize_ok_inversion hfin
      exact ⟨by rw [h3, Graph.state_withGraphs]; exact h1, h2⟩
  · intro g out hout pr hpr row hrow d hd
    rw [Graph.get_shapes] at hout
    obtain ⟨p, _, hf⟩ := collectO_mem _ hout pr hpr
    cases hs : p.2.shapes with
    | dynamic => rw [hs] at hf; simp at hf
    | fixed shapes =>
      rw [hs] at hf
      have hf' : (collectO
          (fun (q : Nat × Shape) =>
            match q.2 with
            | .dynamic => none
            | .fixed dims => some (dims.map g.eval_dim_for_output)) shapes).map
          (fun shapes => (p.1, shapes)) = some pr := hf
      cases hco : collectO
          (fun (q : Nat × Shape) =>
            match q.2 with
            | .dynamic => none
            | .fixed dims => some (dims.map g.eval_dim_for_output)) shapes with
      | none => rw [hco] at hf'; simp at hf'
      | some rows =>
        rw [hco] at hf'
        simp at hf'
        obtain ⟨q, _, hfq⟩ := collectO_mem _ hco row
          (by rw [← hf'] at hrow; exact hrow)
        cases hq2 : q.2 with
        | dynamic => rw [hq2] at hfq; simp at hfq
        | fixed dims =>
          rw [hq2] at hfq
          simp at hfq
          rw [← hfq] at hd
          obtain ⟨d0, _, hd0⟩ := List.mem_map.mp hd
          rw [← hd0]
          exact eval_dim_for_output_no_placeholder g d0

/-- Witness for C5: the `Fixed(Full)` graph finalizes with its child table
cleared; the `Fixed(Weak)` graph fails with `FullShapeRequired`; the model
`[M] #0 Input = 42` compiles to a finalized graph; and the shapes of
`exFullGraph` (whose node dim is the placeholder `N` bound to `7`) contain
no bare placeholder. -/
theorem c5_witness :
    exFullGraph.finalize = .ok (exFullGraph.withGraphs [])
    ∧ exWeakGraph.finalize
        = .err (.graphError (.fullShapeRequired ⟨0, 0, 0⟩) "Input")
    ∧ (exGraphM.shape_state = .fixed .full ∧ exGraphM.graphs = [])
    ∧ (Dim.isBarePlaceholder (.expr (.const 7)) = false) := by
  refine ⟨c5_finalize.2.1 exFullGraph rfl,
    c5_finalize.2.2.1 exWeakGraph ⟨0, 0, 0⟩ "Input" (by decide) rfl rfl,
    c5_finalize.2.2.2.1 4 exModelM (Graph.new false) "M" exGraphM rfl rfl rfl,
    ?_⟩
  have := c5_finalize.2.2.2.2 exFullGraph
      [(⟨0, 0, 0⟩, [[.expr (.const 7)]])] rfl
      (⟨0, 0, 0⟩, [[.expr (.const 7)]]) (by simp) [.expr (.const 7)] (by simp)
      (.expr (.const 7)) (by simp)
  exact this

end N3
